import Mathlib

/-!
Shallow embedding of the `gen_stub` module of `pyo3-stub-gen-derive`.

The source file `src/pyo3-stub-gen-derive/src/gen_stub.rs` contains the four
entry points `pyclass`, `pyclass_enum`, `pymethods`, `pyfunction`: each parses
its input token stream into a syntax-tree item, converts the item into a
`*Info` descriptor via `TryFrom`, and on success re-emits the original item
followed by one `inventory::submit!` registration block wrapping the
descriptor.  The submodules implementing the conversions (`attr`, `signature`,
`member`, `pyclass`, `pyclass_enum`, `pymethods`, `pyfunction`, `method`,
`new`) are not part of the available sources; those components are modelled
from the specification and are marked as such in their doc comments.
-/

namespace GenStub

/-- Modelled from the spec: a raw attribute-argument token (Attribute Parser,
spec 4.1): either a bare flag token (no value) or a `key = "literal"` token.
The `attr` module is not under the available sources. -/
inductive AttrArg where
  | flag (key : String)
  | strOpt (key : String) (value : String)
  deriving DecidableEq

/-- The key of an attribute-argument token. -/
def AttrArg.key : AttrArg → String
  | .flag k => k
  | .strOpt k _ => k

/-- The recognized boolean-flag keys (spec 6: exact closed set). -/
def boolFlagKeys : List String :=
  ["mapping", "sequence", "frozen", "get_all", "set_all", "eq", "ord", "hash",
   "str", "constructor"]

/-- The recognized string-valued option keys (spec 6). -/
def stringOptionKeys : List String := ["name", "module"]

/-- Whether an attribute argument uses a recognized key with the right shape:
a bare flag must use a boolean-flag key, a `key = "literal"` token must use a
string-option key. -/
def AttrArg.recognized : AttrArg → Bool
  | .flag k => decide (k ∈ boolFlagKeys)
  | .strOpt k _ => decide (k ∈ stringOptionKeys)

/-- Modelled from the spec: the structured options record produced by the
Attribute Parser (spec 3, ExposureOptions). -/
structure ExposureOptions where
  renamed_name : Option String
  module : Option String
  flags : List String
  deriving DecidableEq

/-- The empty options record (no renaming, no module, no flags). -/
def ExposureOptions.empty : ExposureOptions := ⟨none, none, []⟩

/-- Fold one recognized attribute argument into the options record. -/
def applyArg (opts : ExposureOptions) : AttrArg → ExposureOptions
  | .flag k => ⟨opts.renamed_name, opts.module, opts.flags ++ [k]⟩
  | .strOpt k v =>
    if k = "name" then ⟨some v, opts.module, opts.flags⟩
    else ⟨opts.renamed_name, some v, opts.flags⟩

/-- Modelled from the spec: the Attribute Parser error taxonomy (spec 7). -/
inductive AttrError where
  | UnrecognizedOption (key : String)
  | DuplicateOption (key : String)
  deriving DecidableEq

/-- Modelled from the spec: the Attribute Parser worker (spec 4.1).  Scans the
argument list left to right carrying the set of keys already seen; an
unrecognized key fails with `UnrecognizedOption`, a key seen twice fails with
`DuplicateOption`. -/
def parseAttrAux (seen : List String) (opts : ExposureOptions) :
    List AttrArg → Except AttrError ExposureOptions
  | [] => .ok opts
  | a :: rest =>
    if a.recognized then
      if a.key ∈ seen then .error (.DuplicateOption a.key)
      else parseAttrAux (a.key :: seen) (applyArg opts a) rest
    else .error (.UnrecognizedOption a.key)

/-- Modelled from the spec: the Attribute Parser (spec 4.1): decodes the raw
argument list of an exposure tag into an `ExposureOptions` record. -/
def parseAttr (args : List AttrArg) : Except AttrError ExposureOptions :=
  parseAttrAux [] ExposureOptions.empty args

/-- The key of the first argument whose key lies outside the recognized
vocabulary, if any. -/
def firstUnrecognized : List AttrArg → Option String
  | [] => none
  | a :: rest => if a.recognized then firstUnrecognized rest else some a.key

/-- The first key that repeats an earlier key (relative to an initial seen
set), if any. -/
def firstDup (seen : List String) : List String → Option String
  | [] => none
  | k :: rest => if k ∈ seen then some k else firstDup (k :: seen) rest

/-- Modelled from the spec: a parameter's passing-convention classification
(spec 3, ParameterDescriptor). -/
inductive PassingKind where
  | PositionalOnly
  | PositionalOrKeyword
  | KeywordOnly
  | VarPositional
  | VarKeyword
  deriving DecidableEq

/-- Modelled from the spec: a declared default value, either a literal whose
text can be rendered verbatim or a complex expression that is rendered as the
placeholder `...` (spec 4.2). -/
inductive DefaultVal where
  | lit (text : String)
  | complex
  deriving DecidableEq

/-- Modelled from the spec: one parameter of a callable's declared parameter
list as handed to the Signature Analyzer (spec 4.2).  Options-supplied
positional-only / keyword-only markers are taken as already applied to
`kind`. -/
structure RawParam where
  name : String
  ty : String
  kind : PassingKind
  default : Option DefaultVal
  deriving DecidableEq

/-- Modelled from the spec: ParameterDescriptor (spec 3). -/
structure ParameterDescriptor where
  name : String
  type_signature : String
  passing_kind : PassingKind
  has_default : Bool
  default_repr : Option String
  deriving DecidableEq

/-- Modelled from the spec: the SignatureError taxonomy (spec 7), each citing
the offending parameter name. -/
inductive SignatureError where
  | DuplicateName (name : String)
  | OrderingViolation (name : String)
  | DefaultOrderingViolation (name : String)
  deriving DecidableEq

/-- Render a default value for documentation: literals verbatim, complex
expressions as the placeholder (spec 4.2). -/
def renderDefault : DefaultVal → String
  | .lit text => text
  | .complex => "..."

/-- Conversion of one raw parameter to its descriptor. -/
def RawParam.toDescriptor (p : RawParam) : ParameterDescriptor :=
  ⟨p.name, p.ty, p.kind, p.default.isSome, p.default.map renderDefault⟩

/-- The first parameter whose name repeats an earlier parameter's name. -/
def findDuplicateAux (seen : List String) : List RawParam → Option String
  | [] => none
  | p :: rest =>
    if p.name ∈ seen then some p.name
    else findDuplicateAux (p.name :: seen) rest

/-- The first duplicated parameter name of a parameter list, if any. -/
def findDuplicate (ps : List RawParam) : Option String := findDuplicateAux [] ps

/-- Rank of a passing kind in the only admissible order: PositionalOnly,
then PositionalOrKeyword, then VarPositional, then KeywordOnly, then
VarKeyword (spec 3 invariant: KeywordOnly may follow VarPositional). -/
def kindRank : PassingKind → Nat
  | .PositionalOnly => 0
  | .PositionalOrKeyword => 1
  | .VarPositional => 2
  | .KeywordOnly => 3
  | .VarKeyword => 4

/-- The first parameter violating the kind-ordering invariant (spec 3): ranks
must be non-decreasing and at most one VarPositional and one VarKeyword may
occur. -/
def checkKindOrderAux (maxRank : Nat) (seenVarPos seenVarKw : Bool) :
    List RawParam → Option String
  | [] => none
  | p :: rest =>
    if kindRank p.kind < maxRank then some p.name
    else if p.kind = .VarPositional ∧ seenVarPos = true then some p.name
    else if p.kind = .VarKeyword ∧ seenVarKw = true then some p.name
    else
      checkKindOrderAux (kindRank p.kind)
        (seenVarPos || decide (p.kind = .VarPositional))
        (seenVarKw || decide (p.kind = .VarKeyword)) rest

/-- The first parameter violating the kind-ordering invariant of a list. -/
def checkKindOrder (ps : List RawParam) : Option String :=
  checkKindOrderAux 0 false false ps

/-- The first non-defaulted parameter that follows a defaulted parameter of
the same kind-group (spec 3 invariant, checked for the PositionalOrKeyword
group and the KeywordOnly group); the two flags record whether a defaulted
parameter of each group was already seen. -/
def checkDefaultOrderAux (seenPk seenKw : Bool) : List RawParam → Option String
  | [] => none
  | p :: rest =>
    if p.kind = .PositionalOrKeyword then
      if p.default = none ∧ seenPk = true then some p.name
      else checkDefaultOrderAux (seenPk || p.default.isSome) seenKw rest
    else if p.kind = .KeywordOnly then
      if p.default = none ∧ seenKw = true then some p.name
      else checkDefaultOrderAux seenPk (seenKw || p.default.isSome) rest
    else checkDefaultOrderAux seenPk seenKw rest

/-- The first default-ordering violation of a parameter list, if any. -/
def checkDefaultOrder (ps : List RawParam) : Option String :=
  checkDefaultOrderAux false false ps

/-- Modelled from the spec: the Signature Analyzer (spec 4.2): classifies the
declared parameter list, failing with a `SignatureError` citing the offending
parameter name on a duplicate name, a kind-ordering violation, or a
non-defaulted parameter after a defaulted one of the same kind-group;
otherwise it emits one descriptor per parameter in declaration order.  The
`signature` module is not under the available sources. -/
def analyzeSignature (ps : List RawParam) :
    Except SignatureError (List ParameterDescriptor) :=
  match findDuplicate ps with
  | some n => .error (.DuplicateName n)
  | none =>
    match checkKindOrder ps with
    | some n => .error (.OrderingViolation n)
    | none =>
      match checkDefaultOrder ps with
      | some n => .error (.DefaultOrderingViolation n)
      | none => .ok (ps.map RawParam.toDescriptor)

/-- Whether a parameter is a non-defaulted PositionalOrKeyword parameter. -/
def isPkNoDefault (q : RawParam) : Bool :=
  decide (q.kind = .PositionalOrKeyword ∧ q.default = none)

/-- Whether a parameter is a defaulted PositionalOrKeyword parameter. -/
def isPkDefault (p : RawParam) : Bool :=
  decide (p.kind = .PositionalOrKeyword) && p.default.isSome

/-- Stated from the spec sentence of the ordering property: some non-defaulted
PositionalOrKeyword parameter appears after a defaulted parameter of the same
kind-group. -/
def violatesPkDefaultOrder : List RawParam → Bool
  | [] => false
  | p :: rest =>
    (isPkDefault p && rest.any isPkNoDefault) || violatesPkDefaultOrder rest

/-- Modelled from the spec: the MemberError taxonomy (spec 7). -/
inductive MemberError where
  | MissingType (field_name : String)
  deriving DecidableEq

/-- Modelled from the spec: an explicit per-field visibility annotation
(readable / writable markers, spec 4.3). -/
inductive VisAnnot where
  | get
  | set
  | getset
  deriving DecidableEq

/-- Whether the annotation makes the member readable. -/
def VisAnnot.readable : VisAnnot → Bool
  | .get => true
  | .set => false
  | .getset => true

/-- Whether the annotation makes the member writable. -/
def VisAnnot.writable : VisAnnot → Bool
  | .get => false
  | .set => true
  | .getset => true

/-- Modelled from the spec: one field of a data-bearing declaration, with an
optional type annotation and an optional explicit visibility annotation
(spec 4.3: a field without a visibility annotation is excluded). -/
structure StructField where
  name : String
  ty : Option String
  vis : Option VisAnnot
  deriving DecidableEq

/-- Modelled from the spec: MemberDescriptor (spec 3). -/
structure MemberDescriptor where
  name : String
  type_signature : String
  readable : Bool
  writable : Bool
  deriving DecidableEq

/-- Modelled from the spec: the Member Extractor (spec 4.3): emits one
descriptor per explicitly annotated field in declaration order, zero for an
unannotated field, and fails with `MemberError.MissingType` on a write-only
field without a type annotation.  The `member` module is not under the
available sources. -/
def extractMembers : List StructField → Except MemberError (List MemberDescriptor)
  | [] => .ok []
  | f :: rest =>
    match f.vis with
    | none => extractMembers rest
    | some v =>
      if v = .set ∧ f.ty = none then .error (.MissingType f.name)
      else
        (extractMembers rest).map
          (fun ms => ⟨f.name, f.ty.getD "...", v.readable, v.writable⟩ :: ms)

/-- Modelled from the spec: the EnumError taxonomy (spec 7). -/
inductive EnumError where
  | PayloadVariant (name : String)
  deriving DecidableEq

/-- Modelled from the spec: the MethodError taxonomy (spec 7). -/
inductive MethodError where
  | SetterWithoutGetter (name : String)
  deriving DecidableEq

/-- The unified compile-error type returned by the entry points: the spec-7
taxonomy wrapped per component, plus `parse` for an input token stream that
does not parse as the expected declaration shape (a failure class outside the
spec-7 taxonomy, produced by the external syntax parser). -/
inductive CompileError where
  | parse
  | attr (e : AttrError)
  | sig (e : SignatureError)
  | member (e : MemberError)
  | enumE (e : EnumError)
  | method (e : MethodError)
  deriving DecidableEq

/-- Lift an Attribute Parser result into the unified error type. -/
def liftAttr {α : Type} : Except AttrError α → Except CompileError α
  | .ok a => .ok a
  | .error e => .error (.attr e)

/-- Lift a Signature Analyzer result into the unified error type. -/
def liftSig {α : Type} : Except SignatureError α → Except CompileError α
  | .ok a => .ok a
  | .error e => .error (.sig e)

/-- Lift a Member Extractor result into the unified error type. -/
def liftMember {α : Type} : Except MemberError α → Except CompileError α
  | .ok a => .ok a
  | .error e => .error (.member e)

/-- Lift an Enum Compiler result into the unified error type. -/
def liftEnum {α : Type} : Except EnumError α → Except CompileError α
  | .ok a => .ok a
  | .error e => .error (.enumE e)

/-- Lift a Methods-Block Compiler result into the unified error type. -/
def liftMethod {α : Type} : Except MethodError α → Except CompileError α
  | .ok a => .ok a
  | .error e => .error (.method e)

/-- Modelled from the spec: one enum variant, with the list of its associated
payload types (empty for a payload-free variant). -/
structure Variant where
  name : String
  payload : List String
  deriving DecidableEq

/-- An enumeration declaration (syn `ItemEnum`), carrying the exposure-tag
attribute arguments attached to it. -/
structure ItemEnum where
  name : String
  attrs : List AttrArg
  variants : List Variant
  doc : String
  deriving DecidableEq

/-- The descriptor embedded for an enum (`PyEnumInfo` of the source doc;
EnumDescriptor of spec 3). -/
structure PyEnumInfo where
  exposed_name : String
  module : Option String
  variants : List String
  doc : String
  deriving DecidableEq

/-- Collect every variant name in declaration order, failing with
`EnumError.PayloadVariant` at the first variant carrying associated data. -/
def collectVariants : List Variant → Except EnumError (List String)
  | [] => .ok []
  | v :: rest =>
    if v.payload = [] then (collectVariants rest).map (v.name :: ·)
    else .error (.PayloadVariant v.name)

/-- The name of the first variant carrying associated data, if any. -/
def firstPayloadVariant : List Variant → Option String
  | [] => none
  | v :: rest => if v.payload = [] then firstPayloadVariant rest else some v.name

/-- Modelled from the spec: the Enum Compiler (spec 4.4): resolves the exposed
name from options else the declaration's own name, extracts every variant in
declaration order, and fails with `EnumError.PayloadVariant(name)` on a
payload-bearing variant.  The `pyclass_enum` module is not under the available
sources. -/
def PyEnumInfo.tryFrom (e : ItemEnum) : Except CompileError PyEnumInfo := do
  let opts ← liftAttr (parseAttr e.attrs)
  let names ← liftEnum (collectVariants e.variants)
  pure ⟨opts.renamed_name.getD e.name, opts.module, names, e.doc⟩

/-- Modelled from the spec: a method-kind tag (spec 3, MethodsBlockDescriptor):
instance, static, class-level, property-getter, property-setter, or
constructor-alternative; getter and setter carry the property name they
expose. -/
inductive MethodKind where
  | instanceMethod
  | staticMethod
  | classMethod
  | getter (prop : String)
  | setter (prop : String)
  | newMethod
  deriving DecidableEq

/-- Modelled from the spec: one callable of an associated-callables block as
handed to the Methods-Block Compiler. -/
structure BlockMethod where
  name : String
  kind : MethodKind
  params : List RawParam
  ret : String
  doc : String
  deriving DecidableEq

/-- Modelled from the spec: CallableDescriptor (spec 3), tagged with its
method-kind. -/
structure CallableDescriptor where
  name : String
  parameters : List ParameterDescriptor
  return_type : String
  doc : String
  kind : MethodKind
  deriving DecidableEq

/-- Modelled from the spec: a merged property entry produced by pairing
getter/setter markers by name (spec 4.4). -/
structure PropEntry where
  name : String
  readable : Bool
  writable : Bool
  deriving DecidableEq

/-- The property names exposed by getter-marked callables, in block order. -/
def getterProps (ms : List BlockMethod) : List String :=
  ms.filterMap (fun m => match m.kind with | .getter p => some p | _ => none)

/-- The property names targeted by setter-marked callables, in block order. -/
def setterProps (ms : List BlockMethod) : List String :=
  ms.filterMap (fun m => match m.kind with | .setter p => some p | _ => none)

/-- The first setter property name with no getter of the same name, if any. -/
def firstUnmatchedSetter (ms : List BlockMethod) : Option String :=
  (setterProps ms).find? (fun s => decide (s ∉ getterProps ms))

/-- Pair getters and setters by property name: an unmatched setter fails with
`MethodError.SetterWithoutGetter`; otherwise each getter yields one property
entry, readable, and writable exactly when a setter shares its name. -/
def collectProps (ms : List BlockMethod) : Except MethodError (List PropEntry) :=
  match firstUnmatchedSetter ms with
  | some n => .error (.SetterWithoutGetter n)
  | none =>
    .ok ((getterProps ms).map
      (fun g => ⟨g, true, decide (g ∈ setterProps ms)⟩))

/-- Analyze every callable of the block (spec 4.4: each signature is delegated
to the Signature Analyzer), keeping block order and the method-kind tag. -/
def compileMethods : List BlockMethod → Except CompileError (List CallableDescriptor)
  | [] => .ok []
  | m :: rest => do
    let ps ← liftSig (analyzeSignature m.params)
    let tail ← compileMethods rest
    pure (⟨m.name, ps, m.ret, m.doc, m.kind⟩ :: tail)

/-- An associated-callables block (syn `ItemImpl`). -/
structure ItemImpl where
  self_ty : String
  methods : List BlockMethod
  deriving DecidableEq

/-- The descriptor embedded for a methods block (`PyMethodsInfo`;
MethodsBlockDescriptor of spec 3), with the merged property entries. -/
structure PyMethodsInfo where
  target_identity : String
  methods : List CallableDescriptor
  properties : List PropEntry
  deriving DecidableEq

/-- Modelled from the spec: the Methods-Block Compiler (spec 4.4): pairs
getter/setter markers by name into property entries (an unmatched setter is an
error) and compiles every callable's signature.  The `pymethods` and `method`
modules are not under the available sources. -/
def PyMethodsInfo.tryFrom (im : ItemImpl) : Except CompileError PyMethodsInfo := do
  let props ← liftMethod (collectProps im.methods)
  let ms ← compileMethods im.methods
  pure ⟨im.self_ty, ms, props⟩

/-- A data-structure declaration (syn `ItemStruct`), carrying the exposure-tag
attribute arguments attached to it. -/
structure ItemStruct where
  name : String
  attrs : List AttrArg
  fields : List StructField
  doc : String
  deriving DecidableEq

/-- The descriptor embedded for a class (`PyClassInfo` of the source doc
comment; ClassDescriptor of spec 3). -/
structure PyClassInfo where
  pyclass_name : String
  module : Option String
  members : List MemberDescriptor
  doc : String
  deriving DecidableEq

/-- Modelled from the spec: the Class Compiler (spec 4.4): resolves the
exposed name from options else the declaration's own name and extracts the
members; constructor attachment (the `new` module) is not modelled, no claim
depends on it.  The `pyclass` module is not under the available sources. -/
def PyClassInfo.tryFrom (s : ItemStruct) : Except CompileError PyClassInfo := do
  let opts ← liftAttr (parseAttr s.attrs)
  let ms ← liftMember (extractMembers s.fields)
  pure ⟨opts.renamed_name.getD s.name, opts.module, ms, s.doc⟩

/-- A free-function declaration (syn `ItemFn`). -/
structure ItemFn where
  name : String
  params : List RawParam
  ret : String
  doc : String
  deriving DecidableEq

/-- The descriptor embedded for a free function (`PyFunctionInfo`;
FunctionDescriptor of spec 3: a CallableDescriptor plus module placement). -/
structure PyFunctionInfo where
  name : String
  parameters : List ParameterDescriptor
  return_type : String
  module : Option String
  doc : String
  deriving DecidableEq

/-- Modelled from the spec: phase one of the Function Compiler (spec 4.4):
the base descriptor built from the function's own declared signature; the
module placement is not yet set.  The `pyfunction` module is not under the
available sources. -/
def PyFunctionInfo.tryFrom (f : ItemFn) : Except CompileError PyFunctionInfo := do
  let ps ← liftSig (analyzeSignature f.params)
  pure ⟨f.name, ps, f.ret, none, f.doc⟩

/-- The input token stream of an entry point, at item granularity: a stream
that is the printed form of exactly one of the four item shapes, or an
attribute-argument list (the second stream `pyfunction` receives), or any
other token stream. -/
inductive TokenStream2 where
  | ofStruct (s : ItemStruct)
  | ofEnum (e : ItemEnum)
  | ofImpl (im : ItemImpl)
  | ofFn (f : ItemFn)
  | ofAttrArgs (args : List AttrArg)
  | other (id : Nat)
  deriving DecidableEq

/-- Models `syn::parse2::<ItemStruct>`: succeeds exactly on a struct item
stream, every other stream is a parse error. -/
def parse2Struct : TokenStream2 → Except CompileError ItemStruct
  | .ofStruct s => .ok s
  | _ => .error .parse

/-- Models `syn::parse2::<ItemEnum>`. -/
def parse2Enum : TokenStream2 → Except CompileError ItemEnum
  | .ofEnum e => .ok e
  | _ => .error .parse

/-- Models `syn::parse2::<ItemImpl>`. -/
def parse2Impl : TokenStream2 → Except CompileError ItemImpl
  | .ofImpl im => .ok im
  | _ => .error .parse

/-- Models `syn::parse2::<ItemFn>`. -/
def parse2Fn : TokenStream2 → Except CompileError ItemFn
  | .ofFn f => .ok f
  | _ => .error .parse

/-- Models parsing the attribute-argument stream handed to `pyfunction`. -/
def parse2AttrArgs : TokenStream2 → Except CompileError (List AttrArg)
  | .ofAttrArgs args => .ok args
  | _ => .error .parse

/-- Modelled from the spec: phase two of the Function Compiler
(`PyFunctionInfo::parse_attr` of the source entry point): parse the
attribute-argument stream and merge the supplied overrides — renamed exposed
name and explicit module — into the base descriptor, leaving everything else
unchanged. -/
def PyFunctionInfo.parse_attr (info : PyFunctionInfo) (attr : TokenStream2) :
    Except CompileError PyFunctionInfo := do
  let args ← parse2AttrArgs attr
  let opts ← liftAttr (parseAttr args)
  pure ⟨opts.renamed_name.getD info.name, info.parameters, info.return_type,
    (match opts.module with | some m => some m | none => info.module), info.doc⟩

/-- A compiled descriptor, tagged by declaration shape (spec 9: a
tagged-variant result type). -/
inductive Info where
  | ofClass (i : PyClassInfo)
  | ofEnum (i : PyEnumInfo)
  | ofMethods (i : PyMethodsInfo)
  | ofFunc (i : PyFunctionInfo)
  deriving DecidableEq

/-- One fragment of an entry point's output token stream: a passed-through
token stream, or one `pyo3_stub_gen::inventory::submit!` registration block
wrapping a descriptor. -/
inductive OutFrag where
  | tokens (ts : TokenStream2)
  | submitBlock (i : Info)
  deriving DecidableEq

/-- An entry point's output token stream, as the ordered list of its
fragments (the expansion of the `quote!` invocation). -/
abbrev Expanded := List OutFrag

/-- The `pyclass` entry point (gen_stub.rs lines 90 to 98): parse the item as
a struct, convert it to `PyClassInfo`, and re-emit the original item followed
by one registration block. -/
def pyclass (item : TokenStream2) : Except CompileError Expanded := do
  let s ← parse2Struct item
  let inner ← PyClassInfo.tryFrom s
  pure [.tokens item, .submitBlock (.ofClass inner)]

/-- The `pyclass_enum` entry point (gen_stub.rs lines 100 to 108). -/
def pyclass_enum (item : TokenStream2) : Except CompileError Expanded := do
  let e ← parse2Enum item
  let inner ← PyEnumInfo.tryFrom e
  pure [.tokens item, .submitBlock (.ofEnum inner)]

/-- The `pymethods` entry point (gen_stub.rs lines 110 to 118). -/
def pymethods (item : TokenStream2) : Except CompileError Expanded := do
  let im ← parse2Impl item
  let inner ← PyMethodsInfo.tryFrom im
  pure [.tokens item, .submitBlock (.ofMethods inner)]

/-- The `pyfunction` entry point (gen_stub.rs lines 120 to 129): parse the
item as a function, build the base descriptor, merge the attribute-supplied
overrides, and re-emit the original item followed by one registration
block. -/
def pyfunction (attr item : TokenStream2) : Except CompileError Expanded := do
  let f ← parse2Fn item
  let base ← PyFunctionInfo.tryFrom f
  let inner ← base.parse_attr attr
  pure [.tokens item, .submitBlock (.ofFunc inner)]

/-- The field list of the `PyPlaceholder` example of the source module doc
comment: three fields annotated with a `get` marker and one field with no
visibility annotation. -/
def placeholderFields : List StructField :=
  [⟨"name", some "String", some .get⟩,
   ⟨"ndim", some "usize", some .get⟩,
   ⟨"description", some "Option<String>", some .get⟩,
   ⟨"custom_latex", some "Option<String>", none⟩]

/-- The `PyPlaceholder` struct of the source module doc comment, tagged
`#[pyclass(mapping, module = "my_module", name = "Placeholder")]`. -/
def placeholderStruct : ItemStruct :=
  ⟨"PyPlaceholder",
   [.flag "mapping", .strOpt "module" "my_module", .strOpt "name" "Placeholder"],
   placeholderFields, ""⟩

/-- The spec-8 enum example whose variants are all payload-free. -/
def rgbEnum : ItemEnum :=
  ⟨"Color", [], [⟨"Red", []⟩, ⟨"Green", []⟩, ⟨"Blue", []⟩], ""⟩

/-- The spec-8 enum example with a payload-bearing variant `Custom(u8)`. -/
def customEnum : ItemEnum :=
  ⟨"Color", [], [⟨"Red", []⟩, ⟨"Custom", ["u8"]⟩], ""⟩

/-- A methods block with a getter and a setter for the property `x`. -/
def getSetBlock : ItemImpl :=
  ⟨"PyPlaceholder",
   [⟨"get_x", .getter "x", [], "usize", ""⟩,
    ⟨"set_x", .setter "x", [], "()", ""⟩]⟩

/-- A methods block with only a setter for the property `x`. -/
def setOnlyBlock : ItemImpl :=
  ⟨"PyPlaceholder", [⟨"set_x", .setter "x", [], "()", ""⟩]⟩

/-- A parameter list with a non-defaulted PositionalOrKeyword parameter after
a defaulted one of the same kind-group. -/
def badDefaultParams : List RawParam :=
  [⟨"a", "i64", .PositionalOrKeyword, some (.lit "1")⟩,
   ⟨"b", "i64", .PositionalOrKeyword, none⟩]

theorem except_ok_of_bind_ok {ε α β : Type} {x : Except ε α} {f : α → Except ε β}
    {b : β} (h : (x >>= f) = .ok b) : ∃ a, x = .ok a ∧ f a = .ok b := by
  cases x with
  | ok a => exact ⟨a, rfl, h⟩
  | error e => exact Except.noConfusion h

theorem except_bind_error_left {ε α β : Type} {x : Except ε α}
    (f : α → Except ε β) {e : ε} (h : x = .error e) : (x >>= f) = .error e := by
  rw [h]; rfl

theorem except_bind_ok_left {ε α β : Type} {x : Except ε α}
    (f : α → Except ε β) {a : α} (h : x = .ok a) : (x >>= f) = f a := by
  rw [h]; rfl

theorem except_isOk_exists {ε α : Type} {x : Except ε α}
    (h : x.isOk = true) : ∃ a, x = .ok a := by
  cases x with
  | ok a => exact ⟨a, rfl⟩
  | error e => exact Bool.noConfusion h

theorem except_map_ok_inv {ε α β : Type} {x : Except ε α} {g : α → β} {b : β}
    (h : x.map g = .ok b) : ∃ a, x = .ok a ∧ g a = b := by
  cases x with
  | ok a => exact ⟨a, rfl, (Except.ok.inj h)⟩
  | error e => exact Except.noConfusion h

theorem except_map_error_inv {ε α β : Type} {x : Except ε α} {g : α → β} {e : ε}
    (h : x.map g = .error e) : x = .error e := by
  cases x with
  | ok a => exact Except.noConfusion h
  | error e' => cases h; rfl

theorem liftAttr_ok_inv {α : Type} {x : Except AttrError α} {a : α}
    (h : liftAttr x = .ok a) : x = .ok a := by
  cases x with
  | ok a' => cases h; rfl
  | error e => exact Except.noConfusion h

theorem liftMember_ok_inv {α : Type} {x : Except MemberError α} {a : α}
    (h : liftMember x = .ok a) : x = .ok a := by
  cases x with
  | ok a' => cases h; rfl
  | error e => exact Except.noConfusion h

theorem liftMethod_ok_inv {α : Type} {x : Except MethodError α} {a : α}
    (h : liftMethod x = .ok a) : x = .ok a := by
  cases x with
  | ok a' => cases h; rfl
  | error e => exact Except.noConfusion h

theorem liftEnum_error_inv {α : Type} {x : Except EnumError α} {e : EnumError}
    (h : liftEnum x = .error (.enumE e)) : x = .error e := by
  cases x with
  | ok a => exact Except.noConfusion h
  | error e' =>
    cases h' : (CompileError.enumE e') with
    | _ => cases h; rfl

/-- C10: applying an entry point to a token stream that does not parse as the
declaration shape it expects (`pyclass` to a non-struct, `pyclass_enum` to a
non-enum, `pymethods` to a non-impl, `pyfunction` to a non-function) yields
the parse error — a failure class outside the spec-7 taxonomy — before any
compiler logic runs, and emits nothing (the error constructor carries no
output fragment). -/
theorem parse_shape_mismatch (ts : TokenStream2) :
    ((∀ s, ts ≠ .ofStruct s) → pyclass ts = .error .parse)
    ∧ ((∀ e, ts ≠ .ofEnum e) → pyclass_enum ts = .error .parse)
    ∧ ((∀ im, ts ≠ .ofImpl im) → pymethods ts = .error .parse)
    ∧ (∀ attr, (∀ f, ts ≠ .ofFn f) → pyfunction attr ts = .error .parse) := by
  refine ⟨fun h => ?_, fun h => ?_, fun h => ?_, fun attr h => ?_⟩ <;>
    cases ts <;> first
      | exact absurd rfl (h _)
      | rfl

/-- Closed witness for C10 at the concrete non-item token stream
`TokenStream2.other 0`. -/
theorem parse_shape_mismatch_witness :
    pyclass (.other 0) = .error .parse
    ∧ pyfunction (.ofAttrArgs []) (.other 0) = .error .parse :=
  ⟨(parse_shape_mismatch (.other 0)).1 (fun _ h => TokenStream2.noConfusion h),
   (parse_shape_mismatch (.other 0)).2.2.2 (.ofAttrArgs [])
     (fun _ h => TokenStream2.noConfusion h)⟩

/-- C4: each of the four entry points is a pure, stateless function of its
input token streams: two invocations on identical inputs return identical
results, so repeated compilation of the same input is idempotent.  In this
embedding the entry points are total functions of their arguments alone,
mirroring the source, which threads no state between calls. -/
theorem compile_deterministic (attr ts1 ts2 : TokenStream2) (h : ts1 = ts2) :
    pyclass ts1 = pyclass ts2 ∧ pyclass_enum ts1 = pyclass_enum ts2
    ∧ pymethods ts1 = pymethods ts2
    ∧ pyfunction attr ts1 = pyfunction attr ts2 := by
  subst h
  exact ⟨rfl, rfl, rfl, rfl⟩

/-- Closed witness for C4 at the concrete input `placeholderStruct`. -/
theorem compile_deterministic_witness :
    pyclass (.ofStruct placeholderStruct) = pyclass (.ofStruct placeholderStruct) :=
  (compile_deterministic (.ofAttrArgs []) (.ofStruct placeholderStruct)
    (.ofStruct placeholderStruct) rfl).1

/-- C2: whenever an entry point succeeds, its output is exactly the original
declaration fragment, re-emitted unchanged, followed by exactly one
registration block wrapping the compiled descriptor. -/
theorem success_reemits_item (attr ts : TokenStream2) (out : Expanded) :
    (pyclass ts = .ok out →
      ∃ inner, out = [.tokens ts, .submitBlock (.ofClass inner)])
    ∧ (pyclass_enum ts = .ok out →
      ∃ inner, out = [.tokens ts, .submitBlock (.ofEnum inner)])
    ∧ (pymethods ts = .ok out →
      ∃ inner, out = [.tokens ts, .submitBlock (.ofMethods inner)])
    ∧ (pyfunction attr ts = .ok out →
      ∃ inner, out = [.tokens ts, .submitBlock (.ofFunc inner)]) := by
  refine ⟨fun h => ?_, fun h => ?_, fun h => ?_, fun h => ?_⟩
  · cases ts <;> try exact Except.noConfusion h
    case ofStruct s =>
      obtain ⟨s', -, h2⟩ := except_ok_of_bind_ok h
      obtain ⟨inner, -, h3⟩ := except_ok_of_bind_ok h2
      exact ⟨inner, (Except.ok.inj h3).symm⟩
  · cases ts <;> try exact Except.noConfusion h
    case ofEnum e =>
      obtain ⟨e', -, h2⟩ := except_ok_of_bind_ok h
      obtain ⟨inner, -, h3⟩ := except_ok_of_bind_ok h2
      exact ⟨inner, (Except.ok.inj h3).symm⟩
  · cases ts <;> try exact Except.noConfusion h
    case ofImpl im =>
      obtain ⟨im', -, h2⟩ := except_ok_of_bind_ok h
      obtain ⟨inner, -, h3⟩ := except_ok_of_bind_ok h2
      exact ⟨inner, (Except.ok.inj h3).symm⟩
  · cases ts <;> try exact Except.noConfusion h
    case ofFn f =>
      obtain ⟨f', -, h2⟩ := except_ok_of_bind_ok h
      obtain ⟨base, -, h3⟩ := except_ok_of_bind_ok h2
      obtain ⟨inner, -, h4⟩ := except_ok_of_bind_ok h3
      exact ⟨inner, (Except.ok.inj h4).symm⟩

/-- Closed witness for C2: compiling the `PyPlaceholder` example succeeds and
the output re-emits the struct followed by one registration block. -/
theorem success_reemits_item_witness :
    ∃ inner,
      [OutFrag.tokens (.ofStruct placeholderStruct),
       OutFrag.submitBlock (.ofClass
         ⟨"Placeholder", some "my_module",
          [⟨"name", "String", true, false⟩,
           ⟨"ndim", "usize", true, false⟩,
           ⟨"description", "Option<String>", true, false⟩], ""⟩)]
      = [OutFrag.tokens (.ofStruct placeholderStruct),
         OutFrag.submitBlock (.ofClass inner)] :=
  (success_reemits_item (.ofAttrArgs []) (.ofStruct placeholderStruct) _).1
    (by rfl)

/-- C1: each entry point is fail-closed: a failure at any compilation step
(shape parsing, descriptor conversion, or for `pyfunction` also
attribute-override parsing) is returned as that single diagnostic error, and
nothing is emitted — the `Except.error` result carries no re-emitted fragment
and no registration block, so no partial descriptor escapes. -/
theorem fail_closed (attr ts : TokenStream2) (err : CompileError) :
    (parse2Struct ts = .error err → pyclass ts = .error err)
    ∧ (∀ s, parse2Struct ts = .ok s → PyClassInfo.tryFrom s = .error err →
        pyclass ts = .error err)
    ∧ (parse2Enum ts = .error err → pyclass_enum ts = .error err)
    ∧ (∀ e, parse2Enum ts = .ok e → PyEnumInfo.tryFrom e = .error err →
        pyclass_enum ts = .error err)
    ∧ (parse2Impl ts = .error err → pymethods ts = .error err)
    ∧ (∀ im, parse2Impl ts = .ok im → PyMethodsInfo.tryFrom im = .error err →
        pymethods ts = .error err)
    ∧ (parse2Fn ts = .error err → pyfunction attr ts = .error err)
    ∧ (∀ f, parse2Fn ts = .ok f → PyFunctionInfo.tryFrom f = .error err →
        pyfunction attr ts = .error err)
    ∧ (∀ f base, parse2Fn ts = .ok f → PyFunctionInfo.tryFrom f = .ok base →
        base.parse_attr attr = .error err → pyfunction attr ts = .error err) := by
  refine ⟨fun h => ?_, fun s h1 h2 => ?_, fun h => ?_, fun e h1 h2 => ?_,
    fun h => ?_, fun im h1 h2 => ?_, fun h => ?_, fun f h1 h2 => ?_,
    fun f base h1 h2 h3 => ?_⟩
  · exact except_bind_error_left _ h
  · rw [pyclass, except_bind_ok_left _ h1]
    exact except_bind_error_left _ h2
  · exact except_bind_error_left _ h
  · rw [pyclass_enum, except_bind_ok_left _ h1]
    exact except_bind_error_left _ h2
  · exact except_bind_error_left _ h
  · rw [pymethods, except_bind_ok_left _ h1]
    exact except_bind_error_left _ h2
  · exact except_bind_error_left _ h
  · rw [pyfunction, except_bind_ok_left _ h1]
    exact except_bind_error_left _ h2
  · rw [pyfunction, except_bind_ok_left _ h1, except_bind_ok_left _ h2]
    exact except_bind_error_left _ h3

/-- Closed witness for C1: a duplicated attribute key on the `PyPlaceholder`
struct makes the whole entry point fail with exactly that diagnostic. -/
theorem fail_closed_witness :
    pyclass (.ofStruct ⟨"PyPlaceholder",
        [.strOpt "name" "A", .strOpt "name" "B"], placeholderFields, ""⟩)
      = .error (.attr (.DuplicateOption "name")) :=
  (fail_closed (.ofAttrArgs [])
      (.ofStruct ⟨"PyPlaceholder",
        [.strOpt "name" "A", .strOpt "name" "B"], placeholderFields, ""⟩)
      (.attr (.DuplicateOption "name"))).2.1
    ⟨"PyPlaceholder", [.strOpt "name" "A", .strOpt "name" "B"],
      placeholderFields, ""⟩ rfl rfl

/-- C3: the Function Compiler is two-phase — `pyfunction` first builds the
base descriptor from the declared signature and then merges the
attribute-supplied overrides — and the override phase only touches identity
and placement metadata (exposed name and module): the parameter sequence, the
return type, and the doc are returned unchanged. -/
theorem function_two_phase (attr : TokenStream2) (info info' : PyFunctionInfo) :
    (info.parse_attr attr = .ok info' →
      info'.parameters = info.parameters
      ∧ info'.return_type = info.return_type
      ∧ info'.doc = info.doc)
    ∧ (∀ f : ItemFn, pyfunction attr (.ofFn f) =
        (PyFunctionInfo.tryFrom f >>= fun base =>
          base.parse_attr attr >>= fun merged =>
            pure [.tokens (.ofFn f), .submitBlock (.ofFunc merged)])) := by
  constructor
  · intro h
    obtain ⟨args, -, h2⟩ := except_ok_of_bind_ok h
    obtain ⟨opts, -, h3⟩ := except_ok_of_bind_ok h2
    have := Except.ok.inj h3
    subst this
    exact ⟨rfl, rfl, rfl⟩
  · intro f
    rfl

/-- Closed witness for C3: renaming `my_func` to `f` and placing it in module
`m` leaves its two-parameter sequence untouched. -/
theorem function_two_phase_witness :
    (⟨"f",
      [⟨"a", "i64", .PositionalOrKeyword, true, some "1"⟩],
      "i64", some "m", "d"⟩ : PyFunctionInfo).parameters
    = (⟨"my_func",
        [⟨"a", "i64", .PositionalOrKeyword, true, some "1"⟩],
        "i64", none, "d"⟩ : PyFunctionInfo).parameters :=
  ((function_two_phase (.ofAttrArgs [.strOpt "name" "f", .strOpt "module" "m"])
      ⟨"my_func", [⟨"a", "i64", .PositionalOrKeyword, true, some "1"⟩],
        "i64", none, "d"⟩
      ⟨"f", [⟨"a", "i64", .PositionalOrKeyword, true, some "1"⟩],
        "i64", some "m", "d"⟩).1 (by rfl)).1

theorem parseAttrAux_ok (args : List AttrArg) :
    ∀ (seen : List String) (opts : ExposureOptions),
      (∀ a ∈ args, a.recognized = true) →
      (∀ k ∈ args.map AttrArg.key, k ∉ seen) →
      (args.map AttrArg.key).Nodup →
      (parseAttrAux seen opts args).isOk = true := by
  induction args with
  | nil => intro seen opts _ _ _; rfl
  | cons a rest ih =>
    intro seen opts hrec hseen hnd
    have ha : a.recognized = true := hrec a (List.mem_cons_self a rest)
    have hmem : a.key ∉ seen := hseen a.key (by simp)
    rw [parseAttrAux, if_pos ha, if_neg hmem]
    refine ih (a.key :: seen) (applyArg opts a)
      (fun b hb => hrec b (List.mem_cons_of_mem a hb)) ?_ hnd.of_cons
    intro k hk
    simp only [List.mem_cons, not_or]
    refine ⟨?_, hseen k (by simp [hk])⟩
    intro hkey
    exact (List.nodup_cons.mp hnd).1 (hkey ▸ hk)

theorem parseAttrAux_unrecognized (args : List AttrArg) :
    ∀ (seen : List String) (opts : ExposureOptions) (k : String),
      (args.map AttrArg.key).Nodup →
      (∀ k' ∈ args.map AttrArg.key, k' ∉ seen) →
      firstUnrecognized args = some k →
      parseAttrAux seen opts args = .error (.UnrecognizedOption k) := by
  induction args with
  | nil => intro _ _ _ _ _ h; exact Option.noConfusion h
  | cons a rest ih =>
    intro seen opts k hnd hseen hfirst
    by_cases ha : a.recognized = true
    · rw [firstUnrecognized, if_pos ha] at hfirst
      have hmem : a.key ∉ seen := hseen a.key (by simp)
      rw [parseAttrAux, if_pos ha, if_neg hmem]
      refine ih (a.key :: seen) (applyArg opts a) k hnd.of_cons ?_ hfirst
      intro k' hk'
      simp only [List.mem_cons, not_or]
      refine ⟨?_, hseen k' (by simp [hk'])⟩
      intro hkey
      exact (List.nodup_cons.mp hnd).1 (hkey ▸ hk')
    · rw [firstUnrecognized, if_neg ha] at hfirst
      rw [parseAttrAux, if_neg ha, Option.some.inj hfirst]

theorem parseAttrAux_duplicate (args : List AttrArg) :
    ∀ (seen : List String) (opts : ExposureOptions) (k : String),
      (∀ a ∈ args, a.recognized = true) →
      firstDup seen (args.map AttrArg.key) = some k →
      parseAttrAux seen opts args = .error (.DuplicateOption k) := by
  induction args with
  | nil => intro _ _ _ _ h; exact Option.noConfusion h
  | cons a rest ih =>
    intro seen opts k hrec hfirst
    have ha : a.recognized = true := hrec a (List.mem_cons_self a rest)
    by_cases hmem : a.key ∈ seen
    · rw [List.map_cons, firstDup, if_pos hmem] at hfirst
      rw [parseAttrAux, if_pos ha, if_pos hmem, Option.some.inj hfirst]
    · rw [List.map_cons, firstDup, if_neg hmem] at hfirst
      rw [parseAttrAux, if_pos ha, if_neg hmem]
      exact ih (a.key :: seen) (applyArg opts a) k
        (fun b hb => hrec b (List.mem_cons_of_mem a hb)) hfirst

/-- C5: the Attribute Parser accepts exactly the closed key vocabulary
(`name` and `module` as string options, the ten boolean flags): an argument
list whose keys are all recognized and pairwise distinct parses successfully;
a list whose keys are distinct but containing an unrecognized key fails with
`UnrecognizedOption` on the first such key; a list of recognized keys in
which some key occurs twice fails with `DuplicateOption` on the first
repeated key. -/
theorem attr_closed_vocabulary (args : List AttrArg) :
    ((∀ a ∈ args, a.recognized = true) → (args.map AttrArg.key).Nodup →
      (parseAttr args).isOk = true)
    ∧ (∀ k, (args.map AttrArg.key).Nodup → firstUnrecognized args = some k →
        parseAttr args = .error (.UnrecognizedOption k))
    ∧ (∀ k, (∀ a ∈ args, a.recognized = true) →
        firstDup [] (args.map AttrArg.key) = some k →
        parseAttr args = .error (.DuplicateOption k)) := by
  refine ⟨fun hrec hnd => ?_, fun k hnd hfirst => ?_, fun k hrec hfirst => ?_⟩
  · exact parseAttrAux_ok args [] ExposureOptions.empty hrec
      (fun k _ => List.not_mem_nil k) hnd
  · exact parseAttrAux_unrecognized args [] ExposureOptions.empty k hnd
      (fun k' _ => List.not_mem_nil k') hfirst
  · exact parseAttrAux_duplicate args [] ExposureOptions.empty k hrec hfirst

/-- Closed witness for C5 at the three spec examples: the `PyPlaceholder`
attribute list parses; an unknown key `weakref` is rejected; the duplicate
`name` pair of spec 8 is rejected. -/
theorem attr_closed_vocabulary_witness :
    (parseAttr [.flag "mapping", .strOpt "module" "my_module",
        .strOpt "name" "Placeholder"]).isOk = true
    ∧ parseAttr [.flag "mapping", .flag "weakref"]
      = .error (.UnrecognizedOption "weakref")
    ∧ parseAttr [.strOpt "name" "A", .strOpt "name" "B"]
      = .error (.DuplicateOption "name") :=
  ⟨(attr_closed_vocabulary _).1 (by decide) (by decide),
   (attr_closed_vocabulary [.flag "mapping", .flag "weakref"]).2.1 "weakref"
     (by decide) (by decide),
   (attr_closed_vocabulary [.strOpt "name" "A", .strOpt "name" "B"]).2.2 "name"
     (by decide) (by decide)⟩

theorem checkDefaultOrderAux_hits (ps : List RawParam) :
    ∀ (sKw : Bool), (∃ q ∈ ps, isPkNoDefault q = true) →
      (checkDefaultOrderAux true sKw ps).isSome = true := by
  induction ps with
  | nil => intro _ h; obtain ⟨q, hq, -⟩ := h; exact absurd hq (List.not_mem_nil q)
  | cons p rest ih =>
    intro sKw h
    obtain ⟨q, hq, hq2⟩ := h
    by_cases hk : p.kind = .PositionalOrKeyword
    · rw [checkDefaultOrderAux, if_pos hk]
      by_cases hd : p.default = none
      · rw [if_pos ⟨hd, rfl⟩]; rfl
      · rw [if_neg (fun hcon => hd hcon.1)]
        have hq' : q ∈ rest := by
          rcases List.mem_cons.mp hq with h1 | h1
          · exfalso
            have := of_decide_eq_true hq2
            exact hd (h1 ▸ this.2)
          · exact h1
        have hdefault : p.default.isSome = true := by
          cases hdp : p.default with
          | none => exact absurd hdp hd
          | some d => rfl
        rw [hdefault, Bool.true_or]
        exact ih sKw ⟨q, hq', hq2⟩
    · have hq' : q ∈ rest := by
        rcases List.mem_cons.mp hq with h1 | h1
        · exfalso
          have := of_decide_eq_true hq2
          exact hk (h1 ▸ this.1)
        · exact h1
      rw [checkDefaultOrderAux, if_neg hk]
      by_cases hkw : p.kind = .KeywordOnly
      · rw [if_pos hkw]
        by_cases hc : p.default = none ∧ sKw = true
        · rw [if_pos hc]; rfl
        · rw [if_neg hc]
          exact ih _ ⟨q, hq', hq2⟩
      · rw [if_neg hkw]
        exact ih sKw ⟨q, hq', hq2⟩

theorem checkDefaultOrderAux_of_violation (ps : List RawParam) :
    ∀ (sPk sKw : Bool), violatesPkDefaultOrder ps = true →
      (checkDefaultOrderAux sPk sKw ps).isSome = true := by
  induction ps with
  | nil => intro _ _ h; exact Bool.noConfusion h
  | cons p rest ih =>
    intro sPk sKw h
    rw [violatesPkDefaultOrder, Bool.or_eq_true] at h
    rcases h with h | h
    · rw [Bool.and_eq_true] at h
      obtain ⟨hpd, hany⟩ := h
      rw [isPkDefault, Bool.and_eq_true] at hpd
      have hk : p.kind = .PositionalOrKeyword := of_decide_eq_true hpd.1
      have hd : p.default = none → False := by
        intro hn; rw [hn] at hpd; exact Bool.noConfusion hpd.2
      rw [checkDefaultOrderAux, if_pos hk, if_neg (fun hcon => hd hcon.1)]
      have hdefault : p.default.isSome = true := by
        cases hdp : p.default with
        | none => exact absurd hdp hd
        | some d => rfl
      rw [hdefault, Bool.or_true]
      obtain ⟨q, hq, hq2⟩ := List.any_eq_true.mp hany
      exact checkDefaultOrderAux_hits rest sKw ⟨q, hq, hq2⟩
    · by_cases hk : p.kind = .PositionalOrKeyword
      · rw [checkDefaultOrderAux, if_pos hk]
        by_cases hc : p.default = none ∧ sPk = true
        · rw [if_pos hc]; rfl
        · rw [if_neg hc]; exact ih _ _ h
      · rw [checkDefaultOrderAux, if_neg hk]
        by_cases hkw : p.kind = .KeywordOnly
        · rw [if_pos hkw]
          by_cases hc : p.default = none ∧ sKw = true
          · rw [if_pos hc]; rfl
          · rw [if_neg hc]; exact ih _ _ h
        · rw [if_neg hkw]; exact ih _ _ h

/-- C6: whenever a non-defaulted PositionalOrKeyword parameter appears after a
defaulted parameter of the same kind-group (and the earlier checks — duplicate
names and kind ordering — pass), the Signature Analyzer fails with
`SignatureError.DefaultOrderingViolation` citing a parameter name; the
`Except.error` result carries no parameter descriptors. -/
theorem signature_default_ordering (ps : List RawParam)
    (hdup : findDuplicate ps = none) (hord : checkKindOrder ps = none)
    (hviol : violatesPkDefaultOrder ps = true) :
    ∃ n, analyzeSignature ps = .error (.DefaultOrderingViolation n) := by
  have hsome := checkDefaultOrderAux_of_violation ps false false hviol
  obtain ⟨n, hn⟩ := Option.isSome_iff_exists.mp hsome
  refine ⟨n, ?_⟩
  rw [analyzeSignature, hdup, hord]
  rw [show checkDefaultOrder ps = some n from hn]

/-- Closed witness for C6 at the concrete list `(a = 1, b)` of
PositionalOrKeyword parameters. -/
theorem signature_default_ordering_witness :
    ∃ n, analyzeSignature badDefaultParams
      = .error (.DefaultOrderingViolation n) :=
  signature_default_ordering badDefaultParams (by decide) (by decide) (by decide)

theorem collectVariants_all_free (vs : List Variant)
    (h : ∀ v ∈ vs, v.payload = []) :
    collectVariants vs = .ok (vs.map Variant.name) := by
  induction vs with
  | nil => rfl
  | cons v rest ih =>
    have hv : v.payload = [] := h v (List.mem_cons_self v rest)
    rw [collectVariants, if_pos hv,
      ih (fun w hw => h w (List.mem_cons_of_mem v hw))]
    rfl

theorem collectVariants_first_payload (vs : List Variant) (n : String)
    (h : firstPayloadVariant vs = some n) :
    collectVariants vs = .error (.PayloadVariant n) := by
  induction vs with
  | nil => exact Option.noConfusion h
  | cons v rest ih =>
    by_cases hv : v.payload = []
    · rw [firstPayloadVariant, if_pos hv] at h
      rw [collectVariants, if_pos hv, ih h]
      rfl
    · rw [firstPayloadVariant, if_neg hv] at h
      rw [collectVariants, if_neg hv, Option.some.inj h]

theorem firstPayloadVariant_isSome (vs : List Variant)
    (h : ∃ v ∈ vs, v.payload ≠ []) : (firstPayloadVariant vs).isSome = true := by
  induction vs with
  | nil => obtain ⟨v, hv, -⟩ := h; exact absurd hv (List.not_mem_nil v)
  | cons v rest ih =>
    by_cases hv : v.payload = []
    · rw [firstPayloadVariant, if_pos hv]
      obtain ⟨w, hw, hw2⟩ := h
      rcases List.mem_cons.mp hw with h1 | h1
      · exact absurd (h1 ▸ hv) hw2
      · exact ih ⟨w, h1, hw2⟩
    · rw [firstPayloadVariant, if_neg hv]; rfl

/-- C7: enum compilation fails with `EnumError.PayloadVariant` exactly when
some variant carries associated data — citing the first such variant — and an
enum whose variants are all payload-free compiles to a descriptor with exactly
one variant entry per declared variant, in declaration order.  (The attribute
list is assumed to parse, so that the payload check is reached.) -/
theorem enum_payload_variants (e : ItemEnum)
    (hattr : (parseAttr e.attrs).isOk = true) :
    (∀ n, firstPayloadVariant e.variants = some n →
      PyEnumInfo.tryFrom e = .error (.enumE (.PayloadVariant n)))
    ∧ ((∀ v ∈ e.variants, v.payload = []) →
      ∃ info, PyEnumInfo.tryFrom e = .ok info
        ∧ info.variants = e.variants.map Variant.name
        ∧ info.variants.length = e.variants.length)
    ∧ ((∃ n, PyEnumInfo.tryFrom e = .error (.enumE (.PayloadVariant n)))
        ↔ ∃ v ∈ e.variants, v.payload ≠ []) := by
  obtain ⟨opts, hopts⟩ := except_isOk_exists hattr
  have key : PyEnumInfo.tryFrom e =
      (liftEnum (collectVariants e.variants) >>= fun names =>
        pure ⟨opts.renamed_name.getD e.name, opts.module, names, e.doc⟩) := by
    rw [PyEnumInfo.tryFrom, hopts]
    exact rfl
  have hok : (∀ v ∈ e.variants, v.payload = []) →
      PyEnumInfo.tryFrom e = .ok ⟨opts.renamed_name.getD e.name, opts.module,
        e.variants.map Variant.name, e.doc⟩ := by
    intro hfree
    rw [key, collectVariants_all_free e.variants hfree]
    rfl
  refine ⟨fun n hn => ?_, fun hfree => ?_, ?_, ?_⟩
  · rw [key, collectVariants_first_payload e.variants n hn]
    rfl
  · exact ⟨_, hok hfree, rfl, List.length_map _ _⟩
  · rintro ⟨n, hn⟩
    by_contra hno
    push_neg at hno
    rw [hok hno] at hn
    exact Except.noConfusion hn
  · intro h
    obtain ⟨n, hn⟩ := Option.isSome_iff_exists.mp (firstPayloadVariant_isSome _ h)
    refine ⟨n, ?_⟩
    rw [key, collectVariants_first_payload e.variants n hn]
    rfl

/-- Closed witness for C7 at the spec-8 examples: `{Red, Custom(u8)}` fails
naming `Custom`; `{Red, Green, Blue}` compiles to exactly three variants in
declaration order. -/
theorem enum_payload_variants_witness :
    PyEnumInfo.tryFrom customEnum = .error (.enumE (.PayloadVariant "Custom"))
    ∧ ∃ info, PyEnumInfo.tryFrom rgbEnum = .ok info
        ∧ info.variants = ["Red", "Green", "Blue"]
        ∧ info.variants.length = 3 :=
  ⟨(enum_payload_variants customEnum (by decide)).1 "Custom" (by decide),
   (enum_payload_variants rgbEnum (by decide)).2.1 (by decide)⟩

theorem propEntry_names (d : String → Bool) (gs : List String) :
    (gs.map (fun g => (⟨g, true, d g⟩ : PropEntry))).map PropEntry.name = gs := by
  induction gs with
  | nil => rfl
  | cons g rest ih => simp only [List.map_cons, ih]

theorem tryFrom_methods_ok_props {im : ItemImpl} {info : PyMethodsInfo}
    (h : PyMethodsInfo.tryFrom im = .ok info) :
    firstUnmatchedSetter im.methods = none
    ∧ info.properties = (getterProps im.methods).map
        (fun g => ⟨g, true, decide (g ∈ setterProps im.methods)⟩) := by
  obtain ⟨props, h1, h2⟩ := except_ok_of_bind_ok h
  obtain ⟨ms, h3, h4⟩ := except_ok_of_bind_ok h2
  have hprops : collectProps im.methods = .ok props := liftMethod_ok_inv h1
  have hinfo : info.properties = props := by
    have := Except.ok.inj h4
    rw [← this]
  cases hfu : firstUnmatchedSetter im.methods with
  | some n =>
    rw [collectProps, hfu] at hprops
    exact Except.noConfusion hprops
  | none =>
    rw [collectProps, hfu] at hprops
    exact ⟨rfl, hinfo.trans (Except.ok.inj hprops).symm⟩

/-- C8: in the Methods-Block Compiler, a getter and a setter sharing a
property name merge into a single property entry with `readable = true` and
`writable = true` (under distinct getter names, exactly one entry carries that
name), and a setter whose name has no matching getter makes compilation of
the whole block fail with `MethodError.SetterWithoutGetter` citing the first
such name. -/
theorem methods_getter_setter (im : ItemImpl) :
    (∀ n, firstUnmatchedSetter im.methods = some n →
      PyMethodsInfo.tryFrom im = .error (.method (.SetterWithoutGetter n)))
    ∧ (∀ x, x ∈ setterProps im.methods → x ∉ getterProps im.methods →
      ∃ n, PyMethodsInfo.tryFrom im = .error (.method (.SetterWithoutGetter n)))
    ∧ (∀ x info, PyMethodsInfo.tryFrom im = .ok info →
      x ∈ getterProps im.methods → x ∈ setterProps im.methods →
      (⟨x, true, true⟩ : PropEntry) ∈ info.properties
      ∧ ((getterProps im.methods).Nodup →
        (info.properties.map PropEntry.name).count x = 1)) := by
  have herr : ∀ n, firstUnmatchedSetter im.methods = some n →
      PyMethodsInfo.tryFrom im = .error (.method (.SetterWithoutGetter n)) := by
    intro n hn
    have hcp : collectProps im.methods = .error (.SetterWithoutGetter n) := by
      rw [collectProps, hn]
    rw [PyMethodsInfo.tryFrom]
    exact except_bind_error_left _ (by rw [hcp]; rfl)
  refine ⟨herr, fun x hx hxg => ?_, fun x info hok hx1 hx2 => ?_⟩
  · cases hfu : firstUnmatchedSetter im.methods with
    | some n => exact ⟨n, herr n hfu⟩
    | none =>
      exfalso
      have := List.find?_eq_none.mp hfu x hx
      simp only [decide_eq_true_eq] at this
      exact this hxg
  · obtain ⟨-, hprops⟩ := tryFrom_methods_ok_props hok
    constructor
    · have hmem := List.mem_map_of_mem
        (fun g => (⟨g, true, decide (g ∈ setterProps im.methods)⟩ : PropEntry)) hx1
      have hmem' : (⟨x, true, decide (x ∈ setterProps im.methods)⟩ : PropEntry)
          ∈ (getterProps im.methods).map
            (fun g => (⟨g, true, decide (g ∈ setterProps im.methods)⟩ : PropEntry)) :=
        hmem
      rw [decide_eq_true hx2] at hmem'
      rw [hprops]
      exact hmem'
    · intro hnd
      rw [hprops, propEntry_names]
      exact List.count_eq_one_of_mem hnd hx1

/-- Closed witness for C8 at the spec-8 property `x`: a block with both
getter and setter merges into the property entry `x` readable and writable,
and the setter-only block fails with `SetterWithoutGetter "x"`. -/
theorem methods_getter_setter_witness :
    (∃ info, PyMethodsInfo.tryFrom getSetBlock = .ok info
      ∧ (⟨"x", true, true⟩ : PropEntry) ∈ info.properties)
    ∧ PyMethodsInfo.tryFrom setOnlyBlock
      = .error (.method (.SetterWithoutGetter "x")) :=
  ⟨⟨⟨"PyPlaceholder",
      [⟨"get_x", [], "usize", "", .getter "x"⟩,
       ⟨"set_x", [], "()", "", .setter "x"⟩],
      [⟨"x", true, true⟩]⟩, rfl,
    ((methods_getter_setter getSetBlock).2.2 "x"
      ⟨"PyPlaceholder",
        [⟨"get_x", [], "usize", "", .getter "x"⟩,
         ⟨"set_x", [], "()", "", .setter "x"⟩],
        [⟨"x", true, true⟩]⟩ (by rfl) (by decide) (by decide)).1⟩,
   (methods_getter_setter setOnlyBlock).1 "x" (by decide)⟩

theorem extractMembers_ok_shape (fs : List StructField) :
    ∀ ms, extractMembers fs = .ok ms →
      ms.map MemberDescriptor.name
        = (fs.filter (fun f => f.vis.isSome)).map StructField.name
      ∧ ms.length = (fs.filter (fun f => f.vis.isSome)).length := by
  induction fs with
  | nil =>
    intro ms h
    have : ms = [] := (Except.ok.inj h).symm
    subst this
    exact ⟨rfl, rfl⟩
  | cons f rest ih =>
    intro ms h
    cases hvis : f.vis with
    | none =>
      rw [extractMembers, hvis] at h
      have hfil : f.vis.isSome = false := by rw [hvis]; rfl
      rw [List.filter_cons, hfil]
      exact ih ms h
    | some v =>
      rw [extractMembers, hvis] at h
      have h' : (if v = VisAnnot.set ∧ f.ty = none
          then (Except.error (MemberError.MissingType f.name) :
            Except MemberError (List MemberDescriptor))
          else (extractMembers rest).map
            (fun ms => ⟨f.name, f.ty.getD "...", v.readable, v.writable⟩ :: ms))
          = .ok ms := h
      by_cases herr : v = .set ∧ f.ty = none
      · rw [if_pos herr] at h'
        exact Except.noConfusion h'
      · rw [if_neg herr] at h'
        obtain ⟨ms', hms', hcons⟩ := except_map_ok_inv h'
        obtain ⟨hnames, hlen⟩ := ih ms' hms'
        have hfil : f.vis.isSome = true := by rw [hvis]; rfl
        rw [List.filter_cons, hfil, ← hcons]
        refine ⟨?_, ?_⟩ <;> simp [hnames, hlen]

/-- C9: the Member Extractor emits exactly one member descriptor per field
carrying an explicit visibility annotation, in field declaration order, and
zero descriptors for a field without one; consequently a compiled class's
member count equals the number of explicitly annotated fields. -/
theorem member_extraction_counts :
    (∀ (fs : List StructField) (ms : List MemberDescriptor),
      extractMembers fs = .ok ms →
      ms.map MemberDescriptor.name
        = (fs.filter (fun f => f.vis.isSome)).map StructField.name
      ∧ ms.length = (fs.filter (fun f => f.vis.isSome)).length)
    ∧ (∀ (s : ItemStruct) (info : PyClassInfo),
      PyClassInfo.tryFrom s = .ok info →
      info.members.length = (s.fields.filter (fun f => f.vis.isSome)).length) := by
  refine ⟨fun fs ms h => extractMembers_ok_shape fs ms h, fun s info h => ?_⟩
  obtain ⟨opts, -, h2⟩ := except_ok_of_bind_ok h
  obtain ⟨ms, h3, h4⟩ := except_ok_of_bind_ok h2
  have hms : extractMembers s.fields = .ok ms := liftMember_ok_inv h3
  have hinfo : info.members = ms := by
    have := Except.ok.inj h4
    rw [← this]
  rw [hinfo]
  exact (extractMembers_ok_shape s.fields ms hms).2

/-- Closed witness for C9 at the `PyPlaceholder` example of the source doc
comment: three of its four fields are annotated and exactly three member
descriptors are emitted, in declaration order. -/
theorem member_extraction_counts_witness :
    [(⟨"name", "String", true, false⟩ : MemberDescriptor),
     ⟨"ndim", "usize", true, false⟩,
     ⟨"description", "Option<String>", true, false⟩].map MemberDescriptor.name
      = (placeholderFields.filter (fun f => f.vis.isSome)).map StructField.name
    ∧ ([(⟨"name", "String", true, false⟩ : MemberDescriptor),
        ⟨"ndim", "usize", true, false⟩,
        ⟨"description", "Option<String>", true, false⟩]).length
      = (placeholderFields.filter (fun f => f.vis.isSome)).length :=
  member_extraction_counts.1 placeholderFields
    [⟨"name", "String", true, false⟩, ⟨"ndim", "usize", true, false⟩,
     ⟨"description", "Option<String>", true, false⟩] (by rfl)

end GenStub
